import Mathlib

/-!
# ask-mai: built-in tool registry, file-creation tool and controller shutdown

A shallow embedding of

* `config/llm/tools/builtin.go` (`BuiltInPrefix`, `BuiltIns.AsFunctionDefinitions`),
* `config/llm/tools/builtin_file_creation.go` (`FileCreation.AsFunctionDefinition`,
  `FileCreation.Command`),
* `controller/base.go` (`Controller.shutdown`),

together with small executable models of the library calls these functions make
(`encoding/json`, `strconv.ParseInt`, `os.Stat`, `os.OpenFile`, `File.WriteString`,
`reflect.Value.Call`, `reflect.Value.IsNil`).

Go strings are modelled by `String`; `len(s)` is the UTF-8 byte length
`String.utf8ByteSize`.
-/

namespace AskMai

/-! ## encoding/json -/

/-- A JSON document. Numbers are carried as the integer they denote; the decoder
below treats every number alike, so fractional literals are not distinguished. -/
inductive JsonValue where
  | null
  | bool (b : Bool)
  | num (n : Int)
  | str (s : String)
  | arr (items : List JsonValue)
  | obj (members : List (String × JsonValue))

/-- The `jsonArguments` text as `json.Unmarshal` sees it: text that is not valid
JSON, or the JSON value the text denotes. -/
inductive JsonText where
  | invalid
  | valid (v : JsonValue)

/-- Errors of `json.Unmarshal`. -/
inductive JsonError where
  | syntaxError
  | unmarshalType (field : String)
  deriving DecidableEq, Repr

/-- Member lookup in a JSON object (last occurrence of the key wins, as in a Go map
or struct decoded from it); `none` on anything that is not an object. -/
def JsonValue.field (key : String) : JsonValue → Option JsonValue
  | .obj members => (members.reverse.lookup key)
  | _ => none

/-- The integer a JSON number denotes. -/
def JsonValue.asInt : JsonValue → Option Int
  | .num n => some n
  | _ => none

/-- Rune folding used by `encoding/json` to match object keys against field names:
ASCII letters are upper-cased; U+017F and U+212A are the only non-ASCII runes whose
fold orbit contains an ASCII letter (`S` and `K`). -/
def foldRune (c : Char) : Char :=
  if c = Char.ofNat 0x17F then 'S'
  else if c = Char.ofNat 0x212A then 'K'
  else c.toUpper

/-- Folded form of a key (`foldName`). -/
def foldName (s : String) : String := String.mk (s.data.map foldRune)

/-! ## strconv.ParseInt -/

/-- Errors of `strconv.ParseInt` (`NumError.Err`). -/
inductive NumError where
  | syntaxErr
  | rangeErr
  deriving DecidableEq, Repr

/-- Value of one digit character in `ParseUint`: `0-9`, then letters of either case
from 10 upwards; `none` for any other byte. -/
def digitVal (c : Char) : Option Nat :=
  if '0' ≤ c ∧ c ≤ '9' then some (c.toNat - '0'.toNat)
  else if 'a' ≤ c.toLower ∧ c.toLower ≤ 'z' then some (c.toLower.toNat - 'a'.toNat + 10)
  else none

/-- The digit loop of `strconv.ParseUint(s, base, bitSize)` over the remaining
characters, with `n` the `uint64` accumulator. `cutoff = maxUint64/base + 1` and
`maxVal = 1<<bitSize - 1`. -/
def parseUintLoop (base bitSize : Nat) : List Char → Nat → Except NumError Nat
  | [], n => .ok n
  | c :: cs, n =>
    match digitVal c with
    | none => .error .syntaxErr
    | some d =>
      if d ≥ base then .error .syntaxErr
      else if n ≥ (2 ^ 64 - 1) / base + 1 then .error .rangeErr
      else
        let n0 := (n * base) % 2 ^ 64
        let n1 := (n0 + d) % 2 ^ 64
        if n1 < n0 ∨ n1 > 2 ^ bitSize - 1 then .error .rangeErr
        else parseUintLoop base bitSize cs n1

/-- Model of `strconv.ParseUint(s, base, bitSize)` for an explicit base `2..36`
(no prefix detection, no underscores). -/
def ParseUint (s : List Char) (base bitSize : Nat) : Except NumError Nat :=
  if s = [] then .error .syntaxErr
  else parseUintLoop base bitSize s 0

/-- Sign and range handling of `strconv.ParseInt` once the sign is picked off. -/
def parseIntSigned (neg : Bool) (s : List Char) (base bitSize : Nat) : Except NumError Int :=
  match ParseUint s base bitSize with
  | .error e => .error e
  | .ok un =>
    let cutoff := 2 ^ (bitSize - 1)
    if !neg ∧ un ≥ cutoff then .error .rangeErr
    else if neg ∧ un > cutoff then .error .rangeErr
    else .ok (if neg then -(un : Int) else (un : Int))

/-- Model of `strconv.ParseInt(s, base, bitSize)` for an explicit base. -/
def ParseInt (s : String) (base bitSize : Nat) : Except NumError Int :=
  match s.data with
  | [] => .error .syntaxErr
  | '+' :: rest => parseIntSigned false rest base bitSize
  | '-' :: rest => parseIntSigned true rest base bitSize
  | cs => parseIntSigned false cs base bitSize

/-! ## The filesystem seen by `os.Stat`, `os.OpenFile` and `File.WriteString`

An idealised, path-keyed filesystem: every entry is a regular file or a directory,
and the only reasons an open can fail are the ones listed in `OSError`. Access
rights, symbolic links, quotas and concurrent processes are outside the model. A
file is created with the mode the system call gives it: the `os.FileMode` passed to
`os.OpenFile` translated by `syscallMode`, with the bits of the process umask
cleared. -/

/-- A filesystem entry. -/
inductive Node where
  | file (mode : Nat) (data : List UInt8)
  | dir (mode : Nat)
  deriving DecidableEq, Repr

/-- Filesystem state: entries keyed by path, first binding wins. -/
abbrev FileSystem := List (String × Node)

/-- Replace or add the entry at `name`. -/
def FileSystem.set (fs : FileSystem) (name : String) (node : Node) : FileSystem :=
  (name, node) :: fs.filter (fun e => e.1 ≠ name)

/-- One observable action of the program on its environment. -/
inductive Effect where
  | stat (name : String)
  | openFile (name : String) (flag perm : Nat)
  | writeString (name : String) (data : List UInt8)
  | close (name : String)
  | slogWarn (msg : String)
  deriving DecidableEq, Repr

/-- The world a command runs in: the filesystem, the file mode creation mask of the
process and the log of actions performed so far (oldest first). -/
structure World where
  fs : FileSystem
  umask : Nat
  trace : List Effect
  deriving DecidableEq, Repr

/-- Errors returned by the operating system. -/
inductive OSError where
  | ENOENT
  | ENOTDIR
  | EISDIR
  | EEXIST
  | EBADF
  deriving DecidableEq, Repr

/-- What `os.Stat` reports (`os.FileInfo`). -/
structure FileInfo where
  name : String
  isDir : Bool
  mode : Nat
  size : Nat
  deriving DecidableEq, Repr

/-- An open file (`*os.File`); `Name()` is the path it was opened with. -/
structure File where
  name : String
  deriving DecidableEq, Repr

def O_WRONLY : Nat := 0x1
def O_CREATE : Nat := 0x40
def O_EXCL : Nat := 0x80
def O_TRUNC : Nat := 0x200

/-- The permission bits `os.ModePerm` of an `os.FileMode`. -/
def ModePerm : Nat := 0o777
/-- The bit `os.ModeSetuid`. -/
def ModeSetuid : Nat := 2 ^ 23
/-- The bit `os.ModeSetgid`. -/
def ModeSetgid : Nat := 2 ^ 22
/-- The bit `os.ModeSticky`. -/
def ModeSticky : Nat := 2 ^ 20
def S_ISUID : Nat := 0o4000
def S_ISGID : Nat := 0o2000
def S_ISVTX : Nat := 0o1000

/-- The function `syscallMode` of package `os`: the system call mode bits for an
`os.FileMode`. Only the nine permission bits and the three special bits are kept;
every other bit of the `FileMode` is dropped. -/
def syscallMode (i : Nat) : Nat :=
  (i &&& ModePerm)
    ||| (if i &&& ModeSetuid ≠ 0 then S_ISUID else 0)
    ||| (if i &&& ModeSetgid ≠ 0 then S_ISGID else 0)
    ||| (if i &&& ModeSticky ≠ 0 then S_ISVTX else 0)

/-- The mode a file gets when it is created by `os.OpenFile(_, _, perm)` in a
process with the given umask: `syscallMode(perm) & ~umask`, the umask acting on the
permission bits. -/
def createdMode (perm umask : Nat) : Nat :=
  syscallMode perm &&& (0o7777 ^^^ (umask &&& 0o777))

/-- Directory part of a path: everything before the last `/` (`/` itself for an
entry of the root, `.` for a path without a slash). -/
def parentDir (p : String) : String :=
  match p.data.reverse.dropWhile (fun c => c ≠ '/') with
  | [] => "."
  | _ :: rest => if rest = [] then "/" else String.mk rest.reverse

/-- Model of `os.Stat(name)`: succeeds exactly when an entry exists. Reads only. -/
def osStat (w : World) (name : String) : Except OSError FileInfo × World :=
  let w1 := { w with trace := w.trace ++ [Effect.stat name] }
  match w.fs.lookup name with
  | some (.file mode data) => (.ok ⟨name, false, mode, data.length⟩, w1)
  | some (.dir mode) => (.ok ⟨name, true, mode, 0⟩, w1)
  | none => (.error .ENOENT, w1)

/-- Model of `os.OpenFile(name, flag, perm)` for a write-only open. An existing
regular file is opened (truncated under `O_TRUNC`, refused under
`O_CREATE|O_EXCL`); a directory cannot be opened for writing; a missing entry is
created under `O_CREATE` when its parent directory exists, with the mode
`createdMode perm umask`. -/
def osOpenFile (w : World) (name : String) (flag perm : Nat) : Except OSError File × World :=
  let w1 := { w with trace := w.trace ++ [Effect.openFile name flag perm] }
  match w.fs.lookup name with
  | some (.dir _) => (.error .EISDIR, w1)
  | some (.file mode _) =>
    if flag &&& O_CREATE ≠ 0 ∧ flag &&& O_EXCL ≠ 0 then (.error .EEXIST, w1)
    else if flag &&& O_TRUNC ≠ 0 then
      (.ok ⟨name⟩, { w1 with fs := w.fs.set name (.file mode []) })
    else (.ok ⟨name⟩, w1)
  | none =>
    if flag &&& O_CREATE = 0 then (.error .ENOENT, w1)
    else
      match w.fs.lookup (parentDir name) with
      | some (.dir _) =>
        (.ok ⟨name⟩, { w1 with fs := w.fs.set name (.file (createdMode perm w.umask) []) })
      | some (.file _ _) => (.error .ENOTDIR, w1)
      | none => (.error .ENOENT, w1)

/-- The bytes of a Go string. -/
def goBytes (s : String) : List UInt8 := s.data.flatMap String.utf8EncodeChar

/-- Model of `file.WriteString(s)` on a freshly opened file (offset 0): the bytes
replace the start of the file; the count returned is the number of bytes written. -/
def File.WriteString (w : World) (file : File) (s : String) : Except OSError Nat × World :=
  let w1 := { w with trace := w.trace ++ [Effect.writeString file.name (goBytes s)] }
  match w.fs.lookup file.name with
  | some (.file mode data) =>
    (.ok (goBytes s).length,
      { w1 with fs := w.fs.set file.name (.file mode (goBytes s ++ data.drop (goBytes s).length)) })
  | _ => (.error .EBADF, w1)

/-- Model of `file.Close()`. -/
def File.Close (w : World) (file : File) : World :=
  { w with trace := w.trace ++ [Effect.close file.name] }

/-- Conversion `os.FileMode(pi)` of an `int64` to the `uint32` mode type. -/
def FileMode (pi : Int) : Nat := (pi % 2 ^ 32).toNat

/-! ## config/llm/tools: function definitions and the file-creation tool -/

/-- Errors `FileCreation.Command` returns, one constructor per `fmt.Errorf` (or
passed-through error) of the source. -/
inductive CommandError where
  /-- Message `error parsing arguments: %w`. -/
  | parsingArguments (cause : JsonError)
  /-- Message `missing parameter: 'path'`. -/
  | missingParameter (name : String)
  /-- The error of `Path.Get`, returned as it is. -/
  | pathGet (cause : String)
  /-- Message `path exists but is a directory: %s`. -/
  | pathIsDirectory (path : String)
  /-- Message `file already exists: %s`. -/
  | fileAlreadyExists (path : String)
  /-- Message `error parsing permissions: %w`. -/
  | parsingPermissions (cause : NumError)
  /-- Message `error creating file: %w`. -/
  | creatingFile (cause : OSError)
  /-- Message `error writing to file: %w`. -/
  | writingToFile (cause : OSError)
  deriving DecidableEq, Repr

/-- Leading text of the error message, as the format strings of the source give it. -/
def CommandError.message : CommandError → String
  | .parsingArguments _ => "error parsing arguments: "
  | .missingParameter name => "missing parameter: '" ++ name ++ "'"
  | .pathGet cause => cause
  | .pathIsDirectory path => "path exists but is a directory: " ++ path
  | .fileAlreadyExists path => "file already exists: " ++ path
  | .parsingPermissions _ => "error parsing permissions: "
  | .creatingFile _ => "error creating file: "
  | .writingToFile _ => "error writing to file: "

/-- The two errors with which `Command` refuses a path that already exists. -/
def CommandError.isConflict : CommandError → Bool
  | .pathIsDirectory _ => true
  | .fileAlreadyExists _ => true
  | _ => false

/-- Type of a tool handler (`CommandFn`): raw JSON arguments in, result bytes or an
error out, acting on the world. The `context.Context` argument is unused by the
handlers embedded here. -/
abbrev CommandFunc := World → JsonText → Except CommandError JsonValue × World

/-- The record `FunctionDefinition`, one callable tool. -/
structure FunctionDefinition where
  Name : String
  Description : String
  Parameters : JsonValue
  NeedsApproval : Bool
  CommandFn : CommandFunc

/-- The struct `FileCreationArguments`; `Path` has the string type `Path`. -/
structure FileCreationArguments where
  Path : String := ""
  Content : String := ""
  Permission : String := ""
  deriving DecidableEq, Repr

/-- The struct `FileCreationResult`. -/
structure FileCreationResult where
  Path : String := ""
  Written : Int := 0
  deriving DecidableEq, Repr

/-- The struct `FileCreation`. -/
structure FileCreation where
  Disable : Bool
  NeedsApproval : Bool
  Y : FileCreationResult := {}
  Z : FileCreationArguments := {}
  deriving DecidableEq, Repr

/-- Functions `Command` calls that are not part of the embedded sources: `Path.Get`
(the path resolution helper of this repository) and `filepath.Abs`. Both are
parameters of the development. -/
structure Env where
  pathGet : String → Except String String
  filepathAbs : String → Except String String

/-- Decoding of one object member into the string field it names: a JSON string
sets the field, `null` leaves it, any other value is recorded as an
`UnmarshalTypeError` (the first one is the error returned). -/
def decodeMember (st : FileCreationArguments × Option JsonError) (m : String × JsonValue) :
    FileCreationArguments × Option JsonError :=
  let set (upd : String → FileCreationArguments) (field : String) :
      FileCreationArguments × Option JsonError :=
    match m.2 with
    | .str s => (upd s, st.2)
    | .null => st
    | _ => (st.1, st.2.orElse (fun _ => some (.unmarshalType field)))
  if foldName m.1 = foldName "path" then set (fun s => { st.1 with Path := s }) "path"
  else if foldName m.1 = foldName "content" then set (fun s => { st.1 with Content := s }) "content"
  else if foldName m.1 = foldName "permission" then
    set (fun s => { st.1 with Permission := s }) "permission"
  else st

/-- Model of `json.Unmarshal([]byte(jsonArguments), &pArgs)` for a zero `pArgs` of
type `FileCreationArguments`. -/
def jsonUnmarshal : JsonText → Except JsonError FileCreationArguments
  | .invalid => .error .syntaxError
  | .valid .null => .ok {}
  | .valid (.obj members) =>
    match members.foldl decodeMember ({}, none) with
    | (pArgs, none) => .ok pArgs
    | (_, some e) => .error e
  | .valid _ => .error (.unmarshalType "")

/-- Model of `json.Marshal(FileCreationResult{...})`, which cannot fail. -/
def jsonMarshal (r : FileCreationResult) : JsonValue :=
  .obj [("path", .str r.Path), ("written", .num r.Written)]

/-- The block of `Command` that settles `perm`: `os.FileMode(0644)` unless the
permission argument is non-empty, in which case it is parsed by
`strconv.ParseInt(pArgs.Permission, 8, 32)` and a parse error ends the command. -/
def commandPerm (permission : String) : Except NumError Nat :=
  if permission ≠ "" then
    match ParseInt permission 8 32 with
    | .error pe => .error pe
    | .ok pi => .ok (FileMode pi)
  else .ok 0o644

/-- The method `FileCreation.Command`. -/
def FileCreation.Command (env : Env) (_f : FileCreation) (w : World) (jsonArguments : JsonText) :
    Except CommandError JsonValue × World :=
  match jsonUnmarshal jsonArguments with
  | .error err => (.error (.parsingArguments err), w)
  | .ok pArgs =>
    if pArgs.Path = "" then (.error (.missingParameter "path"), w)
    else
      match env.pathGet pArgs.Path with
      | .error err => (.error (.pathGet err), w)
      | .ok path =>
        -- Check if file already exists
        match osStat w path with
        | (.ok fileInfo, w1) =>
          if fileInfo.isDir then (.error (.pathIsDirectory path), w1)
          else (.error (.fileAlreadyExists path), w1)
        | (.error _, w1) =>
          let flag := O_WRONLY ||| O_CREATE
          match commandPerm pArgs.Permission with
          | .error pe => (.error (.parsingPermissions pe), w1)
          | .ok perm =>
            match osOpenFile w1 path flag perm with
            | (.error err, w2) => (.error (.creatingFile err), w2)
            | (.ok file, w2) =>
              let (absolutePath, w3) :=
                match env.filepathAbs file.name with
                | .ok p => (p, w2)
                | .error _ =>
                  (file.name,
                    { w2 with trace := w2.trace ++ [Effect.slogWarn "Error getting absolute path!"] })
              match File.WriteString w3 file pArgs.Content with
              | (.error err, w4) => (.error (.writingToFile err), File.Close w4 file)
              | (.ok s, w4) =>
                (.ok (jsonMarshal { Path := absolutePath, Written := s }), File.Close w4 file)

/-- The method `FileCreation.AsFunctionDefinition`; `none` is the nil pointer. -/
def FileCreation.AsFunctionDefinition (env : Env) (f : FileCreation) : Option FunctionDefinition :=
  if f.Disable then none
  else
    some {
      Name := "createFile"
      Description := "Creates a new file on the user's system."
      CommandFn := f.Command env
      Parameters := .obj [
        ("type", .str "object"),
        ("properties", .obj [
          ("path", .obj [
            ("type", .str "string"),
            ("description",
              .str "The path to the file to create. Use '~' for the user's home directory.")]),
          ("content", .obj [
            ("type", .str "string"),
            ("description", .str "The content of the file.")]),
          ("permission", .obj [
            ("type", .str "string"),
            ("description", .str "The permission of the file. Default is 0644.")])]),
        ("additionalProperties", .bool false),
        ("required", .arr [.str "path"])]
      NeedsApproval := f.NeedsApproval }

/-! ## config/llm/tools/builtin.go: the registry of built-in tools -/

/-- The constant `BuiltInPrefix`. -/
def BuiltInPrefix : String := "__"

/-- A value a reflected method call can return in `result[0]`, told apart by what
the loop asks of it: a nil value of a kind that can be nil (pointer, interface, map,
slice, channel, function), a non-nil `*FunctionDefinition`, a non-nil value of
another type whose kind can be nil, and a value of a kind that cannot be nil
(struct, number, string, ...). -/
inductive ReflectValue where
  | nilValue
  | fnPtr (fn : FunctionDefinition)
  | otherNilable
  | nonNilable

/-- A method as reflection sees it: the number of its parameters (`Type().NumIn()`,
the receiver not counted), whether the last one is variadic, and the results a call
without arguments returns. -/
structure Method where
  numIn : Nat
  variadic : Bool
  results : List ReflectValue

/-- A slot of `BuiltIns` as reflection sees it. The slot types `SystemInfo` and
`CommandExecution` are not among the embedded sources, so what
`MethodByName("AsFunctionDefinition")` finds is a parameter: `none` when the field
has no such method (the zero `Value`, `IsValid()` false), otherwise the method. -/
structure Slot where
  method : Option Method

/-- The struct `BuiltIns`. -/
structure BuiltIns where
  SystemInfo : Slot
  CommandExec : Slot

/-- Run-time panics of package `reflect` the loop can raise. -/
inductive ReflectPanic where
  /-- Panic `reflect: Call with too few input arguments`. -/
  | tooFewArguments
  /-- Panic `reflect: call of reflect.Value.IsNil on ... Value`. -/
  | isNilOnNonNilable
  deriving DecidableEq, Repr

/-- Model of `method.Call(nil)`: a call with no arguments panics unless the method
has no parameter besides a variadic one. -/
def Method.Call (m : Method) : Except ReflectPanic (List ReflectValue) :=
  let n := if m.variadic then m.numIn - 1 else m.numIn
  if 0 < n then .error .tooFewArguments else .ok m.results

/-- Model of `reflect.Value.IsNil`: panics on a value whose kind cannot be nil. -/
def ReflectValue.IsNil : ReflectValue → Except ReflectPanic Bool
  | .nilValue => .ok true
  | .fnPtr _ => .ok false
  | .otherNilable => .ok false
  | .nonNilable => .error .isNilOnNonNilable

/-- The fields `v.Field(0)`, `v.Field(1)` of `reflect.ValueOf(b)`, in declaration
order. -/
def BuiltIns.fields (b : BuiltIns) : List Slot := [b.SystemInfo, b.CommandExec]

/-- One iteration of the loop in `AsFunctionDefinitions`, `functions` being the slice
built so far. -/
def loopBody (functions : List FunctionDefinition) (field : Slot) :
    Except ReflectPanic (List FunctionDefinition) :=
  -- Check if the field has a method called AsFunctionDefinition
  match field.method with
  | none => .ok functions
  | some method =>
    -- Call the method and get the result
    match method.Call with
    | .error p => .error p
    | .ok [] => .ok functions
    | .ok (r :: _) =>
      match r.IsNil with
      | .error p => .error p
      | .ok true => .ok functions
      | .ok false =>
        -- Convert the result to FunctionDefinition and add it to the list
        match r with
        | .fnPtr fn => .ok (functions ++ [{ fn with Name := BuiltInPrefix ++ fn.Name }])
        | _ => .ok functions

/-- The loop of `AsFunctionDefinitions` over the remaining fields; a panic ends it. -/
def loopFrom : List Slot → List FunctionDefinition → Except ReflectPanic (List FunctionDefinition)
  | [], functions => .ok functions
  | field :: rest, functions =>
    match loopBody functions field with
    | .error p => .error p
    | .ok functions1 => loopFrom rest functions1

/-- The method `BuiltIns.AsFunctionDefinitions`: the slice it returns, or the panic
it raises. -/
def BuiltIns.AsFunctionDefinitions (b : BuiltIns) :
    Except ReflectPanic (List FunctionDefinition) :=
  loopFrom b.fields []

/-! ## controller/base.go: shutdown -/

/-- A call the controller makes on one of its collaborators during shutdown. -/
inductive ControllerCall where
  /-- The cancel function `aiModelCancel` of the in-flight ask is invoked. -/
  | cancel
  /-- The call `aiModel.Close()`. -/
  | close
  deriving DecidableEq, Repr

/-- A non-nil `llms.Model` as far as shutdown is concerned: how many times `Close`
has been called on it. What the implementation behind the interface does on a
repeated `Close` is not part of the embedded sources. -/
structure Model where
  closeCalls : Nat
  deriving DecidableEq, Repr

/-- The call `aiModel.Close()` on a non-nil handle; its error result is discarded by
`shutdown`. -/
def Model.Close (m : Model) : Model := { m with closeCalls := m.closeCalls + 1 }

/-- The result record `llmAskResult`. -/
structure llmAskResult where
  Content : String
  Error : Option String
  deriving DecidableEq, Repr

/-- The struct `Controller`. `aiModel` is an interface value, `none` being nil. The
cancel function of the in-flight ask is represented by whether it is set
(`aiModelCancel`); `calls` logs the calls made on the cancel function and the model
handle, oldest first. Contexts, the mutex, configuration and printer play no part in
`shutdown` and are left out. -/
structure Controller where
  aiModel : Option Model
  aiModelCancel : Bool
  calls : List ControllerCall
  lastAskResult : llmAskResult
  vueAppMounted : Bool
  streamBuffer : List UInt8
  lastState : String
  deriving DecidableEq, Repr

/-- How a method call ends: it returns, or it panics, in the state reached. -/
inductive Outcome (σ : Type) where
  | returned (s : σ)
  | panicked (s : σ)
  deriving DecidableEq, Repr

/-- Modelled from the spec: `Controller.LLMInterrupt` is defined in a file of the
controller package that is not among the embedded sources. The spec has an interrupt
cancel the execution scope of the in-flight ask and be a no-op on an idle
controller; it does not touch the model handle. -/
def Controller.LLMInterrupt (c : Controller) : Controller :=
  if c.aiModelCancel then { c with calls := c.calls ++ [ControllerCall.cancel] } else c

/-- The method `Controller.shutdown`. Calling `Close` on a nil interface value is a
nil dereference panic. -/
def Controller.shutdown (c : Controller) : Outcome Controller :=
  let c1 := c.LLMInterrupt
  match c1.aiModel with
  | none => .panicked c1
  | some m => .returned { c1 with aiModel := some m.Close, calls := c1.calls ++ [ControllerCall.close] }

/-- Two runs of `shutdown` in a row; the second one only if the first returned. -/
def Controller.shutdownTwice (c : Controller) : Outcome Controller :=
  match c.shutdown with
  | .returned c1 => c1.shutdown
  | .panicked c1 => .panicked c1

/-! ## Specification-side notions -/

/-- The definition a slot offers to the registry: the non-nil `*FunctionDefinition`
its `AsFunctionDefinition` producer returns first, if the slot has such a producer. -/
def Slot.produced (s : Slot) : Option FunctionDefinition :=
  match s.method with
  | some ⟨_, _, .fnPtr fn :: _⟩ => some fn
  | _ => none

/-- The method can be called without arguments: it has no parameter besides a
variadic one. -/
def Method.callable (m : Method) : Bool :=
  if m.variadic then decide (m.numIn ≤ 1) else decide (m.numIn = 0)

/-- The slot keeps to the shape the loop relies on: its producer, if it has one, can
be called without arguments and its first result, if any, is of a kind that can be
nil (as for a `func() *FunctionDefinition`). -/
def Slot.conforms (s : Slot) : Bool :=
  match s.method with
  | none => true
  | some m =>
    m.callable
      && (match m.results with
          | .nonNilable :: _ => false
          | _ => true)

/-- A definition renamed for exposure: the reserved prefix put before its name. -/
def prefixed (fn : FunctionDefinition) : FunctionDefinition :=
  { fn with Name := BuiltInPrefix ++ fn.Name }

/-- The names the two slot producers give their definitions differ, when both
produce one. -/
def BuiltIns.producedNamesDistinct (b : BuiltIns) : Bool :=
  match b.SystemInfo.produced, b.CommandExec.produced with
  | some f1, some f2 => f1.Name != f2.Name
  | _, _ => true

/-- A non-empty sequence of octal digits. -/
def isOctalDigits (cs : List Char) : Bool :=
  !cs.isEmpty && cs.all (fun c => decide ('0' ≤ c) && decide (c ≤ '7'))

/-- The sequence without one leading sign character. -/
def stripSign : List Char → List Char
  | '+' :: rest => rest
  | '-' :: rest => rest
  | cs => cs

/-- The number a sequence of octal digits denotes when read in base 8. -/
def octalValue (cs : List Char) : Nat :=
  cs.foldl (fun acc c => acc * 8 + (c.toNat - '0'.toNat)) 0

/-- The error of a command result, if it is one. -/
def errorOf (r : Except CommandError JsonValue × World) : Option CommandError :=
  match r.1 with
  | .ok _ => none
  | .error e => some e

/-- The `written` member of the JSON a successful command returned. -/
def writtenOf (r : Except CommandError JsonValue × World) : Option Int :=
  match r.1 with
  | .ok v => (v.field "written").bind JsonValue.asInt
  | .error _ => none

/-- No member of the argument object names the `path` field (or the document is
`null`, which decodes to the zero value). -/
def pathAbsent : JsonText → Bool
  | .valid .null => true
  | .valid (.obj members) => members.all (fun m => foldName m.1 != foldName "path")
  | _ => false

/-! ## Concrete inputs and observations used to exercise the theorems -/

/-- An environment in which paths resolve to themselves. -/
def sampleEnv : Env := ⟨fun p => .ok p, fun p => .ok p⟩

/-- A filesystem holding the directory `/tmp` and the file `/tmp/a`, in a process
with the usual umask `022`. -/
def sampleWorld : World := ⟨[("/tmp", .dir 0o755), ("/tmp/a", .file 0o644 [])], 0o22, []⟩

/-- An enabled file-creation tool. -/
def sampleTool : FileCreation := { Disable := false, NeedsApproval := false }

/-- The argument object `{"path": p, "content": c, "permission": m}`. -/
def sampleArgs (p c m : String) : JsonText :=
  .valid (.obj [("path", .str p), ("content", .str c), ("permission", .str m)])

/-- A definition named `name` whose handler does nothing. -/
def sampleDefinition (name : String) : FunctionDefinition :=
  { Name := name, Description := "", Parameters := .null, NeedsApproval := false,
    CommandFn := fun w _ => (.ok .null, w) }

/-- A producer of the shape `func() *FunctionDefinition` returning `r`. -/
def sampleProducer (r : ReflectValue) : Slot := ⟨some ⟨0, false, [r]⟩⟩

/-- A registry whose first slot is disabled and whose second slot is enabled. -/
def sampleBuiltIns : BuiltIns :=
  { SystemInfo := sampleProducer .nilValue,
    CommandExec := sampleProducer (.fnPtr (sampleDefinition "second")) }

/-- A registry with both slots enabled. -/
def sampleBuiltInsBoth : BuiltIns :=
  { SystemInfo := sampleProducer (.fnPtr (sampleDefinition "first")),
    CommandExec := sampleProducer (.fnPtr (sampleDefinition "second")) }

/-- A registry whose two slots produce definitions of the same name. -/
def sampleBuiltInsDup : BuiltIns :=
  { SystemInfo := sampleProducer (.fnPtr (sampleDefinition "dup")),
    CommandExec := sampleProducer (.fnPtr (sampleDefinition "dup")) }

/-- A registry whose first slot has a producer returning a struct value. -/
def sampleBuiltInsStruct : BuiltIns :=
  { SystemInfo := sampleProducer .nonNilable,
    CommandExec := sampleProducer (.fnPtr (sampleDefinition "second")) }

/-- A registry whose first slot has a producer that takes one argument. -/
def sampleBuiltInsArgument : BuiltIns :=
  { SystemInfo := ⟨some ⟨1, false, [.fnPtr (sampleDefinition "first")]⟩⟩,
    CommandExec := sampleProducer (.fnPtr (sampleDefinition "second")) }

/-- The names of the definitions a run of the registry returned. -/
def namesOf (r : Except ReflectPanic (List FunctionDefinition)) : Option (List String) :=
  match r with
  | .ok fds => some (fds.map (fun fd => fd.Name))
  | .error _ => none

/-- The panic a run of the registry ended in, if any. -/
def panicOf (r : Except ReflectPanic (List FunctionDefinition)) : Option ReflectPanic :=
  match r with
  | .ok _ => none
  | .error p => some p

/-- An idle controller whose model handle has never been closed. -/
def sampleController : Controller :=
  { aiModel := some ⟨0⟩, aiModelCancel := false, calls := [], lastAskResult := ⟨"", none⟩,
    vueAppMounted := false, streamBuffer := [], lastState := "" }

/-- A controller with an ask in flight. -/
def sampleControllerInFlight : Controller := { sampleController with aiModelCancel := true }

/-- A zero controller: nil model handle, no ask in flight. -/
def sampleControllerZero : Controller := { sampleController with aiModel := none }

/-! ## Theorems: the registry -/

/-- A reflected call without arguments returns the method's results exactly when the
method is callable that way, and panics otherwise. -/
theorem call_eq (m : Method) :
    m.Call = if m.callable then .ok m.results else .error .tooFewArguments := by
  unfold Method.Call Method.callable
  cases hv : m.variadic
  · by_cases hn : m.numIn = 0
    · simp [hn]
    · simp [hn, Nat.pos_of_ne_zero hn]
  · by_cases hn : m.numIn ≤ 1
    · have : ¬ 0 < m.numIn - 1 := by omega
      simp [hn, this]
    · have : 0 < m.numIn - 1 := by omega
      simp [hn, this]

/-- A loop iteration that returns has appended the slot's renamed definition, if the
slot offers one, and nothing else. -/
theorem loopBody_ok (functions functions1 : List FunctionDefinition) (field : Slot)
    (h : loopBody functions field = .ok functions1) :
    functions1 = functions ++ (field.produced.map prefixed).toList := by
  rcases field with ⟨_ | m⟩
  · simp only [loopBody, Except.ok.injEq] at h
    simp [Slot.produced, ← h]
  · unfold loopBody at h
    simp only [call_eq] at h
    cases hc : m.callable with
    | false => simp [hc] at h
    | true =>
      rcases m with ⟨n, v, rs⟩
      simp only [hc, if_true] at h
      rcases rs with _ | ⟨r, rest⟩
      · simp only [Except.ok.injEq] at h
        simp [Slot.produced, ← h]
      · cases r <;> simp_all [ReflectValue.IsNil, Slot.produced, prefixed]

/-- On a conforming slot a loop iteration returns. -/
theorem loopBody_conforms (functions : List FunctionDefinition) (field : Slot)
    (h : field.conforms = true) : ∃ functions1, loopBody functions field = .ok functions1 := by
  rcases field with ⟨_ | m⟩
  · exact ⟨_, rfl⟩
  · simp only [Slot.conforms, Bool.and_eq_true] at h
    obtain ⟨hn, hr⟩ := h
    unfold loopBody
    simp only [call_eq, hn, if_true]
    rcases m with ⟨n, v, rs⟩
    rcases rs with _ | ⟨r, rest⟩
    · exact ⟨_, rfl⟩
    · cases r <;> simp_all [ReflectValue.IsNil]

/-- On a slot that does not conform a loop iteration panics. -/
theorem loopBody_not_conforms (functions : List FunctionDefinition) (field : Slot)
    (h : field.conforms = false) : ∃ p, loopBody functions field = .error p := by
  rcases field with ⟨_ | m⟩
  · simp [Slot.conforms] at h
  · unfold loopBody
    simp only [call_eq]
    cases hc : m.callable with
    | false => exact ⟨_, rfl⟩
    | true =>
      rcases m with ⟨n, v, rs⟩
      simp only [Slot.conforms, hc, Bool.true_and] at h
      simp only [if_true]
      rcases rs with _ | ⟨r, rest⟩
      · simp at h
      · cases r <;> simp_all [ReflectValue.IsNil]

/-- The slice a run of the registry returns, slot by slot. -/
theorem asFunctionDefinitions_ok (b : BuiltIns) (fds : List FunctionDefinition)
    (h : b.AsFunctionDefinitions = .ok fds) :
    fds = (b.SystemInfo.produced.map prefixed).toList
          ++ (b.CommandExec.produced.map prefixed).toList := by
  unfold BuiltIns.AsFunctionDefinitions BuiltIns.fields loopFrom at h
  cases h1 : loopBody [] b.SystemInfo with
  | error p => simp [h1] at h
  | ok f1 =>
    simp only [h1, loopFrom] at h
    cases h2 : loopBody f1 b.CommandExec with
    | error p => simp [h2] at h
    | ok f2 =>
      simp only [h2, Except.ok.injEq] at h
      rw [← h, loopBody_ok f1 f2 _ h2, loopBody_ok [] f1 _ h1]
      simp

/-- The registry returns exactly when both slots conform. -/
theorem asFunctionDefinitions_returns_iff (b : BuiltIns) :
    (b.fields.all Slot.conforms = true → ∃ fds, b.AsFunctionDefinitions = .ok fds)
      ∧ (b.fields.all Slot.conforms = false → ∃ p, b.AsFunctionDefinitions = .error p) := by
  unfold BuiltIns.AsFunctionDefinitions BuiltIns.fields
  simp only [List.all_cons, List.all_nil, Bool.and_true, Bool.and_eq_true, Bool.and_eq_false_iff]
  constructor
  · rintro ⟨c1, c2⟩
    obtain ⟨f1, h1⟩ := loopBody_conforms [] b.SystemInfo c1
    obtain ⟨f2, h2⟩ := loopBody_conforms f1 b.CommandExec c2
    exact ⟨f2, by simp [loopFrom, h1, h2]⟩
  · intro hc
    cases c1 : b.SystemInfo.conforms with
    | false =>
      obtain ⟨p, hp⟩ := loopBody_not_conforms [] b.SystemInfo c1
      exact ⟨p, by simp [loopFrom, hp]⟩
    | true =>
      obtain ⟨f1, h1⟩ := loopBody_conforms [] b.SystemInfo c1
      have c2 : b.CommandExec.conforms = false := by
        rcases hc with h | h
        · rw [c1] at h; exact absurd h (by decide)
        · exact h
      obtain ⟨p, hp⟩ := loopBody_not_conforms f1 b.CommandExec c2
      exact ⟨p, by simp [loopFrom, h1, hp]⟩

/-- Putting the reserved prefix before two names keeps different names different. -/
theorem prefix_injective (a c : String) (h : BuiltInPrefix ++ a = BuiltInPrefix ++ c) :
    a = c := by
  have h2 := congrArg String.data h
  simp only [String.data_append] at h2
  exact String.ext (List.append_cancel_left h2)

/-- C1: every definition in the slice `b.AsFunctionDefinitions()` returns comes from a
slot of `b` whose producer returned a non-nil definition `fn`, and its name is
`BuiltInPrefix` followed by `fn.Name`; in particular the name starts with the two
characters `__`. -/
theorem asFunctionDefinitions_name_prefixed (b : BuiltIns) (fds : List FunctionDefinition)
    (fd : FunctionDefinition) (hok : b.AsFunctionDefinitions = .ok fds) (h : fd ∈ fds) :
    ∃ slot ∈ b.fields, ∃ fn, slot.produced = some fn ∧ fd.Name = BuiltInPrefix ++ fn.Name
      ∧ "__".data <+: fd.Name.data := by
  rw [asFunctionDefinitions_ok b fds hok] at h
  simp only [List.mem_append, Option.mem_toList, Option.mem_def, Option.map_eq_some'] at h
  rcases h with ⟨fn, hfn, rfl⟩ | ⟨fn, hfn, rfl⟩
  · exact ⟨b.SystemInfo, by simp [BuiltIns.fields], fn, hfn, rfl, ⟨fn.Name.data, rfl⟩⟩
  · exact ⟨b.CommandExec, by simp [BuiltIns.fields], fn, hfn, rfl, ⟨fn.Name.data, rfl⟩⟩

/-- C1 at the registry with one enabled slot: its only definition is named
`__second`. -/
theorem asFunctionDefinitions_name_prefixed_witness :
    sampleBuiltIns.AsFunctionDefinitions = .ok [prefixed (sampleDefinition "second")]
      ∧ ∃ slot ∈ sampleBuiltIns.fields, ∃ fn, slot.produced = some fn
          ∧ (prefixed (sampleDefinition "second")).Name = BuiltInPrefix ++ fn.Name
          ∧ "__".data <+: (prefixed (sampleDefinition "second")).Name.data :=
  ⟨rfl, asFunctionDefinitions_name_prefixed sampleBuiltIns _ _ rfl (List.mem_singleton.mpr rfl)⟩

/-- C2, as the code has it: the definitions in the slice `b.AsFunctionDefinitions()`
returns have pairwise different names exactly when the names the two slot producers
gave their definitions differ. The registry keeps different names different and
removes no duplicate. -/
theorem asFunctionDefinitions_names_unique_iff (b : BuiltIns) (fds : List FunctionDefinition)
    (hok : b.AsFunctionDefinitions = .ok fds) :
    (fds.Pairwise (fun x y => x.Name ≠ y.Name) ↔ b.producedNamesDistinct = true)
      ∧ ((fds.map (fun fd => fd.Name)).Nodup ↔ b.producedNamesDistinct = true) := by
  rw [asFunctionDefinitions_ok b fds hok]
  unfold BuiltIns.producedNamesDistinct
  cases h1 : b.SystemInfo.produced <;> cases h2 : b.CommandExec.produced <;>
    simp [prefixed]
  constructor
  · intro h hh; exact h (congrArg (fun s => BuiltInPrefix ++ s) hh)
  · intro h hh; exact h (prefix_injective _ _ hh)

/-- C2 as amended, at the registry with both slots enabled under different names. -/
theorem asFunctionDefinitions_names_unique_iff_witness :
    namesOf sampleBuiltInsBoth.AsFunctionDefinitions = some ["__first", "__second"]
      ∧ (([prefixed (sampleDefinition "first"), prefixed (sampleDefinition "second")].Pairwise
            (fun x y => x.Name ≠ y.Name) ↔ sampleBuiltInsBoth.producedNamesDistinct = true)
        ∧ (([prefixed (sampleDefinition "first"), prefixed (sampleDefinition "second")].map
            (fun fd => fd.Name)).Nodup ↔ sampleBuiltInsBoth.producedNamesDistinct = true)) :=
  ⟨by decide, asFunctionDefinitions_names_unique_iff sampleBuiltInsBoth _ rfl⟩

/-- C2 fails at the registry whose two slots both produce a definition named `dup`:
the slice returned holds two definitions named `__dup`. -/
theorem asFunctionDefinitions_duplicate_names :
    namesOf sampleBuiltInsDup.AsFunctionDefinitions = some ["__dup", "__dup"]
      ∧ ¬ (["__dup", "__dup"] : List String).Nodup := by
  decide

/-- C9, as the code has it: when every slot conforms (its producer, if it has one,
can be called without arguments and returns first a value of a kind that can be
nil), `b.AsFunctionDefinitions()` returns the definitions the slots produce, in slot
order (`SystemInfo` before `CommandExec`), each renamed with the prefix: one entry
for a slot whose producer returns a non-nil definition, none for a slot whose
producer returns nil or that has no producer; the length is the number of producing
slots. When some slot does not conform the call panics. -/
theorem asFunctionDefinitions_enabled_slots (b : BuiltIns) :
    (b.fields.all Slot.conforms = true →
        ∃ fds, b.AsFunctionDefinitions = .ok fds
          ∧ fds = (b.fields.filterMap Slot.produced).map prefixed
          ∧ fds = (b.SystemInfo.produced.toList ++ b.CommandExec.produced.toList).map prefixed
          ∧ fds.length = (b.fields.filter (fun s => s.produced.isSome)).length)
      ∧ (b.fields.all Slot.conforms = false → ∃ p, b.AsFunctionDefinitions = .error p) := by
  refine ⟨?_, (asFunctionDefinitions_returns_iff b).2⟩
  intro hc
  obtain ⟨fds, hok⟩ := (asFunctionDefinitions_returns_iff b).1 hc
  refine ⟨fds, hok, ?_⟩
  rw [asFunctionDefinitions_ok b fds hok]
  cases h1 : b.SystemInfo.produced <;> cases h2 : b.CommandExec.produced <;>
    simp [BuiltIns.fields, h1, h2]

/-- C9 as amended, at the registry whose first slot is disabled and whose second slot
is enabled: one definition is returned. -/
theorem asFunctionDefinitions_enabled_slots_witness :
    sampleBuiltIns.fields.all Slot.conforms = true
      ∧ ∃ fds, sampleBuiltIns.AsFunctionDefinitions = .ok fds
          ∧ fds = (sampleBuiltIns.fields.filterMap Slot.produced).map prefixed
          ∧ fds = (sampleBuiltIns.SystemInfo.produced.toList
                    ++ sampleBuiltIns.CommandExec.produced.toList).map prefixed
          ∧ fds.length = (sampleBuiltIns.fields.filter (fun s => s.produced.isSome)).length :=
  ⟨by decide, (asFunctionDefinitions_enabled_slots sampleBuiltIns).1 (by decide)⟩

/-- C9 fails at two registries whose first slot does not keep to the producer
contract: a producer returning a struct value, and a producer taking an argument.
Neither slot offers a definition, yet the slot is not skipped: the call panics, in
`IsNil` and in `Call`. -/
theorem asFunctionDefinitions_panics :
    sampleBuiltInsStruct.SystemInfo.produced.isSome = false
      ∧ panicOf sampleBuiltInsStruct.AsFunctionDefinitions = some .isNilOnNonNilable
      ∧ namesOf sampleBuiltInsStruct.AsFunctionDefinitions = none
      ∧ panicOf sampleBuiltInsArgument.AsFunctionDefinitions = some .tooFewArguments
      ∧ namesOf sampleBuiltInsArgument.AsFunctionDefinitions = none := by
  decide

/-! ## Theorems: `FileCreation.AsFunctionDefinition` -/

/-- C8: `f.AsFunctionDefinition()` is nil exactly when `f.Disable` is set and is a
definition exactly when it is not; any two configurations with the same `Disable`
flag agree on which of the two happens, whatever their other fields. -/
theorem asFunctionDefinition_disable (env : Env) (f : FileCreation) :
    (f.AsFunctionDefinition env = none ↔ f.Disable = true)
      ∧ ((∃ fd, f.AsFunctionDefinition env = some fd) ↔ f.Disable = false)
      ∧ ∀ (env2 : Env) (g : FileCreation), g.Disable = f.Disable →
          (g.AsFunctionDefinition env2).isSome = (f.AsFunctionDefinition env).isSome := by
  refine ⟨?_, ?_, ?_⟩
  · cases hd : f.Disable <;> simp [FileCreation.AsFunctionDefinition, hd]
  · cases hd : f.Disable <;> simp [FileCreation.AsFunctionDefinition, hd]
  · intro env2 g hg
    cases hd : f.Disable <;> simp [FileCreation.AsFunctionDefinition, hd, hg]

/-! ## Theorems: `Controller.shutdown` -/

/-- C7, as the code has it: on a controller whose model handle is not nil, a run of
`shutdown` first interrupts the in-flight ask (the cancel function is invoked when
one is set) and then calls `Close` on the model handle, once and unconditionally,
changing nothing else. Two runs in a row therefore call `Close` twice, each after
its own interrupt. On a nil model handle `shutdown` panics at `Close`, after the
interrupt. -/
theorem shutdown_closes_each_time (c : Controller) (m : Model) (h : c.aiModel = some m) :
    c.shutdown = .returned { c with
        aiModel := some ⟨m.closeCalls + 1⟩
        calls := c.calls ++ (if c.aiModelCancel then [ControllerCall.cancel] else [])
          ++ [ControllerCall.close] }
      ∧ c.shutdownTwice = .returned { c with
        aiModel := some ⟨m.closeCalls + 2⟩
        calls := c.calls ++ (if c.aiModelCancel then [ControllerCall.cancel] else [])
          ++ [ControllerCall.close]
          ++ (if c.aiModelCancel then [ControllerCall.cancel] else [])
          ++ [ControllerCall.close] }
      ∧ { c with aiModel := none }.shutdown = .panicked { c with
        aiModel := none
        calls := c.calls ++ (if c.aiModelCancel then [ControllerCall.cancel] else []) } := by
  rcases c with ⟨am, cancel, calls, r, v, sb, ls⟩
  simp only [] at h
  subst h
  cases cancel <;>
    simp [Controller.shutdownTwice, Controller.shutdown, Controller.LLMInterrupt, Model.Close]

/-- C7 as amended, at a controller with an ask in flight and a fresh handle. -/
theorem shutdown_closes_each_time_witness :
    sampleControllerInFlight.shutdown = .returned { sampleControllerInFlight with
        aiModel := some ⟨1⟩
        calls := [ControllerCall.cancel, ControllerCall.close] }
      ∧ sampleControllerInFlight.shutdownTwice = .returned { sampleControllerInFlight with
        aiModel := some ⟨2⟩
        calls := [ControllerCall.cancel, ControllerCall.close, ControllerCall.cancel,
          ControllerCall.close] }
      ∧ { sampleControllerInFlight with aiModel := none }.shutdown
          = .panicked { sampleControllerInFlight with
              aiModel := none, calls := [ControllerCall.cancel] } :=
  shutdown_closes_each_time sampleControllerInFlight ⟨0⟩ rfl

/-- C7 fails on an idle controller with a fresh handle: after two shutdowns `Close`
has been called twice, so the second shutdown is not a no-op; and on the zero
controller, whose model handle is nil, already the first shutdown panics. -/
theorem shutdown_twice_closes_twice :
    sampleController.shutdown = .returned { sampleController with
        aiModel := some ⟨1⟩, calls := [ControllerCall.close] }
      ∧ sampleController.shutdownTwice = .returned { sampleController with
        aiModel := some ⟨2⟩, calls := [ControllerCall.close, ControllerCall.close] }
      ∧ sampleController.shutdownTwice ≠ sampleController.shutdown
      ∧ sampleControllerZero.shutdown = .panicked sampleControllerZero := by
  decide

/-! ## Theorems: `strconv.ParseInt` on permission texts -/

/-- Order of characters is order of their codes. -/
theorem char_le_iff (a c : Char) : a ≤ c ↔ a.toNat ≤ c.toNat := by
  rw [Char.le_def]
  exact UInt32.le_def

/-- An octal digit character has a code between 48 and 55. -/
theorem octal_char_iff (c : Char) :
    (decide ('0' ≤ c) && decide (c ≤ '7')) = true ↔ 48 ≤ c.toNat ∧ c.toNat ≤ 55 := by
  simp only [Bool.and_eq_true, decide_eq_true_eq, char_le_iff]
  exact Iff.rfl

theorem digitVal_octal (c : Char) (h : 48 ≤ c.toNat ∧ c.toNat ≤ 55) :
    digitVal c = some (c.toNat - '0'.toNat) := by
  unfold digitVal
  have h1 : '0' ≤ c ∧ c ≤ '9' := by
    rw [char_le_iff, char_le_iff]
    have : ('0' : Char).toNat = 48 := rfl
    have : ('9' : Char).toNat = 57 := rfl
    omega
  rw [if_pos h1]

theorem digitVal_small (c : Char) (d : Nat) (h : digitVal c = some d) (hd : d < 8) :
    48 ≤ c.toNat ∧ c.toNat ≤ 55 := by
  unfold digitVal at h
  split at h
  · rename_i h1
    rw [char_le_iff, char_le_iff] at h1
    have e0 : ('0' : Char).toNat = 48 := rfl
    have e9 : ('9' : Char).toNat = 57 := rfl
    simp only [Option.some.injEq] at h
    omega
  · split at h
    · simp only [Option.some.injEq] at h
      omega
    · simp at h


/-- The base-8 reading step never decreases the accumulator. -/
theorem foldl_octal_ge (cs : List Char) (n : Nat) :
    n ≤ cs.foldl (fun acc c => acc * 8 + (c.toNat - '0'.toNat)) n := by
  induction cs generalizing n with
  | nil => exact Nat.le_refl n
  | cons c cs ih =>
    simp only [List.foldl_cons]
    exact Nat.le_trans (by omega) (ih _)

/-- On octal digits whose reading stays below `2^32` the digit loop returns that
reading. -/
theorem parseUintLoop_octal (cs : List Char) (n : Nat)
    (hall : cs.all (fun c => decide ('0' ≤ c) && decide (c ≤ '7')) = true)
    (hval : cs.foldl (fun acc c => acc * 8 + (c.toNat - '0'.toNat)) n < 2 ^ 32) :
    parseUintLoop 8 32 cs n
      = .ok (cs.foldl (fun acc c => acc * 8 + (c.toNat - '0'.toNat)) n) := by
  induction cs generalizing n with
  | nil => rfl
  | cons c cs ih =>
    simp only [List.all_cons, Bool.and_eq_true] at hall
    have hc := (octal_char_iff c).mp (by simpa using hall.1)
    simp only [List.foldl_cons] at hval ⊢
    have hge := foldl_octal_ge cs (n * 8 + (c.toNat - '0'.toNat))
    have e0 : ('0' : Char).toNat = 48 := rfl
    have hn1 : n * 8 + (c.toNat - '0'.toNat) < 2 ^ 32 := Nat.lt_of_le_of_lt hge hval
    unfold parseUintLoop
    rw [digitVal_octal c hc]
    simp only []
    have h1 : ¬ (c.toNat - '0'.toNat ≥ 8) := by omega
    have h2 : ¬ (n ≥ (2 ^ 64 - 1) / 8 + 1) := by
      norm_num at hn1 ⊢
      omega
    have h3 : (n * 8) % 2 ^ 64 = n * 8 := Nat.mod_eq_of_lt (by norm_num at hn1 ⊢; omega)
    have h4 : (n * 8 + (c.toNat - '0'.toNat)) % 2 ^ 64 = n * 8 + (c.toNat - '0'.toNat) :=
      Nat.mod_eq_of_lt (by norm_num at hn1 ⊢; omega)
    rw [if_neg h1, if_neg h2, h3, h4]
    have h5 : ¬ (n * 8 + (c.toNat - '0'.toNat) < n * 8
        ∨ n * 8 + (c.toNat - '0'.toNat) > 2 ^ 32 - 1) := by
      norm_num at hn1 ⊢; omega
    rw [if_neg h5]
    exact ih _ hall.2 hval

/-- The digit loop fails as soon as the text holds a character that is not an octal
digit. -/
theorem parseUintLoop_not_octal (cs : List Char) (n : Nat)
    (hall : cs.all (fun c => decide ('0' ≤ c) && decide (c ≤ '7')) = false) :
    ∃ e, parseUintLoop 8 32 cs n = .error e := by
  induction cs generalizing n with
  | nil => simp at hall
  | cons c cs ih =>
    unfold parseUintLoop
    cases hd : digitVal c with
    | none => exact ⟨_, rfl⟩
    | some d =>
      simp only []
      by_cases h1 : d ≥ 8
      · rw [if_pos h1]; exact ⟨_, rfl⟩
      · rw [if_neg h1]
        split
        · exact ⟨_, rfl⟩
        · split
          · exact ⟨_, rfl⟩
          · have hc := (octal_char_iff c).mpr (digitVal_small c d hd (by omega))
            simp only [List.all_cons, hc, Bool.true_and] at hall
            exact ih _ hall

/-- An unsigned text of octal digits reading below `2^31` parses to its reading. -/
theorem parseInt_octal (s : String) (hoct : isOctalDigits s.data = true)
    (hval : octalValue s.data < 2 ^ 31) : ParseInt s 8 32 = .ok (octalValue s.data) := by
  unfold isOctalDigits at hoct
  simp only [Bool.and_eq_true, Bool.not_eq_true', List.isEmpty_eq_false] at hoct
  obtain ⟨hne, hall⟩ := hoct
  have hloop := parseUintLoop_octal s.data 0 hall
    (Nat.lt_trans hval (by norm_num))
  have hsigned : parseIntSigned false s.data 8 32 = .ok (octalValue s.data) := by
    unfold parseIntSigned ParseUint
    rw [if_neg hne, hloop]
    unfold octalValue at hval ⊢
    simp
    norm_num at hval; simpa using hval
  unfold ParseInt
  split
  · rename_i h; exact absurd h hne
  · rename_i rest h
    rw [h] at hall
    simp at hall
  · rename_i rest h
    rw [h] at hall
    simp at hall
  · exact hsigned


/-- Text that is not a non-empty run of octal digits is refused, whatever the sign. -/
theorem parseIntSigned_malformed (neg : Bool) (cs : List Char)
    (hmal : isOctalDigits cs = false) : ∃ e, parseIntSigned neg cs 8 32 = .error e := by
  unfold parseIntSigned ParseUint
  by_cases hne : cs = []
  · rw [if_pos hne]; exact ⟨_, rfl⟩
  · rw [if_neg hne]
    have hall : cs.all (fun c => decide ('0' ≤ c) && decide (c ≤ '7')) = false := by
      unfold isOctalDigits at hmal
      cases cs with
      | nil => exact absurd rfl hne
      | cons c cs => simpa using hmal
    obtain ⟨e, he⟩ := parseUintLoop_not_octal cs 0 hall
    rw [he]; exact ⟨_, rfl⟩

/-- A permission text that is not an optionally signed run of octal digits is
refused by `ParseInt`. -/
theorem parseInt_malformed (s : String) (hmal : isOctalDigits (stripSign s.data) = false) :
    ∃ e, ParseInt s 8 32 = .error e := by
  unfold ParseInt
  split
  · exact ⟨_, rfl⟩
  · rename_i rest h
    rw [h] at hmal
    exact parseIntSigned_malformed false rest hmal
  · rename_i rest h
    rw [h] at hmal
    exact parseIntSigned_malformed true rest hmal
  · rename_i h0 h1 h2
    have hs : stripSign s.data = s.data := by
      unfold stripSign
      split
      · rename_i rest h; exact absurd h (h1 rest)
      · rename_i rest h; exact absurd h (h2 rest)
      · rfl
    rw [hs] at hmal
    exact parseIntSigned_malformed false s.data hmal

/-- The bytes of a string are as many as its UTF-8 size. -/
theorem goBytes_length (s : String) : (goBytes s).length = s.utf8ByteSize := by
  rcases s with ⟨cs⟩
  unfold goBytes
  induction cs with
  | nil => rfl
  | cons c cs ih =>
    simp only [List.flatMap_cons, List.length_append, String.length_utf8EncodeChar] at ih ⊢
    rw [ih]
    simp [String.utf8ByteSize, String.utf8ByteSize.go, Nat.add_comm]


/-! ## Theorems: `FileCreation.Command` -/

/-- A member that does not name the `path` field leaves `Path` as it was. -/
theorem decodeMember_path (st : FileCreationArguments × Option JsonError)
    (m : String × JsonValue) (h : foldName m.1 ≠ foldName "path") :
    (decodeMember st m).1.Path = st.1.Path := by
  unfold decodeMember
  rw [if_neg h]
  split_ifs <;> first | rfl | (split <;> rfl)

/-- Members none of which names the `path` field leave `Path` as it was. -/
theorem foldl_decodeMember_path (members : List (String × JsonValue))
    (st : FileCreationArguments × Option JsonError)
    (h : members.all (fun m => foldName m.1 != foldName "path") = true) :
    (members.foldl decodeMember st).1.Path = st.1.Path := by
  induction members generalizing st with
  | nil => rfl
  | cons m members ih =>
    simp only [List.all_cons, Bool.and_eq_true, bne_iff_ne, ne_eq] at h
    rw [List.foldl_cons, ih _ (by simpa using h.2), decodeMember_path st m h.1]

/-- Arguments in which `path` is absent decode with an empty `Path`. -/
theorem jsonUnmarshal_pathAbsent (j : JsonText) (pArgs : FileCreationArguments)
    (hdec : jsonUnmarshal j = .ok pArgs) (habs : pathAbsent j = true) : pArgs.Path = "" := by
  unfold pathAbsent at habs
  split at habs
  · simp only [jsonUnmarshal, Except.ok.injEq] at hdec
    rw [← hdec]
  · rename_i members
    have hp := foldl_decodeMember_path members ({}, none) habs
    simp only [jsonUnmarshal] at hdec
    split at hdec
    · rename_i p hfold
      simp only [Except.ok.injEq] at hdec
      rw [hfold] at hp
      rw [← hdec]; exact hp
    · simp at hdec
  · simp at habs

/-- C5: when the arguments decode and `path` is absent from them or is the empty
string, `Command` returns the error `missing parameter: 'path'` and the world is
exactly as before: no stat, no open, no write was performed and the filesystem is
unchanged. -/
theorem command_missing_path (env : Env) (f : FileCreation) (w : World) (j : JsonText)
    (pArgs : FileCreationArguments) (hdec : jsonUnmarshal j = .ok pArgs)
    (hpath : pArgs.Path = "" ∨ pathAbsent j = true) :
    f.Command env w j = (.error (.missingParameter "path"), w)
      ∧ (CommandError.missingParameter "path").message = "missing parameter: 'path'" := by
  have hp : pArgs.Path = "" := hpath.elim id (jsonUnmarshal_pathAbsent j pArgs hdec)
  refine ⟨?_, by decide⟩
  unfold FileCreation.Command
  rw [hdec]
  simp only [hp, if_true]

/-- C3: when the arguments decode, `path` is non-empty and resolves to a location
that exists, `Command` returns a conflict error (`path exists but is a directory`
for a directory, `file already exists` for a file) and no result; the only action
performed is the stat and the filesystem is unchanged. Content and permission are
arbitrary. -/
theorem command_existing_path_conflict (env : Env) (f : FileCreation) (w : World) (j : JsonText)
    (pArgs : FileCreationArguments) (path : String) (node : Node)
    (hdec : jsonUnmarshal j = .ok pArgs) (hne : pArgs.Path ≠ "")
    (hget : env.pathGet pArgs.Path = .ok path) (hex : w.fs.lookup path = some node) :
    ∃ e, (f.Command env w j).1 = .error e ∧ e.isConflict = true
      ∧ e = (match node with
              | .dir _ => CommandError.pathIsDirectory path
              | .file _ _ => CommandError.fileAlreadyExists path)
      ∧ (f.Command env w j).2.fs = w.fs
      ∧ (f.Command env w j).2.trace = w.trace ++ [Effect.stat path] := by
  unfold FileCreation.Command
  rw [hdec]
  simp only [if_neg hne, hget, osStat, hex]
  cases node <;> simp [CommandError.isConflict]


/-- The permission block refuses a non-empty text that is not an optionally signed
run of octal digits. -/
theorem commandPerm_malformed (s : String) (hne : s ≠ "")
    (hmal : isOctalDigits (stripSign s.data) = false) : ∃ pe, commandPerm s = .error pe := by
  obtain ⟨e, he⟩ := parseInt_malformed s hmal
  exact ⟨e, by unfold commandPerm; rw [if_pos hne, he]⟩

/-- The permission block on an empty text and on octal digits reading below `2^31`. -/
theorem commandPerm_octal (s : String) :
    (s = "" → commandPerm s = .ok 0o644)
      ∧ (isOctalDigits s.data = true → octalValue s.data < 2 ^ 31 →
          commandPerm s = .ok (octalValue s.data)) := by
  constructor
  · intro h; unfold commandPerm; rw [if_neg (not_not.mpr h)]
  · intro hoct hval
    have hne : s ≠ "" := by
      intro h; rw [h] at hoct; exact absurd hoct (by decide)
    unfold commandPerm
    rw [if_pos hne, parseInt_octal s hoct hval]
    simp only [FileMode]
    congr 1
    norm_num at hval ⊢
    omega

/-- Looking up the entry just set. -/
theorem lookup_set (fs : FileSystem) (name : String) (node : Node) :
    (fs.set name node).lookup name = some node := by
  simp [FileSystem.set, List.lookup]

/-- C6, as the code has it: with a non-empty path and a non-empty permission text
that is not an optionally signed run of octal digits, `Command` fails and leaves the
filesystem unchanged; the error is the permission parse error when the path resolves
to a location that does not exist (the existence check comes first). -/
theorem command_malformed_permission (env : Env) (f : FileCreation) (w : World) (j : JsonText)
    (pArgs : FileCreationArguments) (hdec : jsonUnmarshal j = .ok pArgs)
    (hne : pArgs.Path ≠ "") (hperm : pArgs.Permission ≠ "")
    (hmal : isOctalDigits (stripSign pArgs.Permission.data) = false) :
    (∃ e, (f.Command env w j).1 = .error e) ∧ (f.Command env w j).2.fs = w.fs
      ∧ ∀ path, env.pathGet pArgs.Path = .ok path → w.fs.lookup path = none →
          ∃ pe, f.Command env w j
            = (.error (.parsingPermissions pe), { w with trace := w.trace ++ [Effect.stat path] }) := by
  obtain ⟨pe, hpe⟩ := commandPerm_malformed pArgs.Permission hperm hmal
  unfold FileCreation.Command
  rw [hdec]
  simp only [if_neg hne]
  cases hget : env.pathGet pArgs.Path with
  | error err => simp
  | ok path =>
    cases hex : w.fs.lookup path with
    | some node =>
      refine ⟨by cases node <;> simp [osStat, hex], by cases node <;> simp [osStat, hex], ?_⟩
      intro p hp hn
      simp only [Except.ok.injEq] at hp
      rw [← hp, hex] at hn
      exact absurd hn (by simp)
    | none => simp [osStat, hex, hpe]

/-- A run of `Command` that reaches the creation of the file. -/
theorem command_creates (env : Env) (f : FileCreation) (w : World) (j : JsonText)
    (pArgs : FileCreationArguments) (path : String) (perm dmode : Nat)
    (hdec : jsonUnmarshal j = .ok pArgs) (hne : pArgs.Path ≠ "")
    (hget : env.pathGet pArgs.Path = .ok path) (hnew : w.fs.lookup path = none)
    (hparent : w.fs.lookup (parentDir path) = some (.dir dmode))
    (hperm : commandPerm pArgs.Permission = .ok perm) :
    errorOf (f.Command env w j) = none
      ∧ writtenOf (f.Command env w j) = some (pArgs.Content.utf8ByteSize : Int)
      ∧ (f.Command env w j).2.fs.lookup path
          = some (.file (createdMode perm w.umask) (goBytes pArgs.Content))
      ∧ Effect.openFile path (O_WRONLY ||| O_CREATE) perm ∈ (f.Command env w j).2.trace := by
  have hflag : ¬ ((O_WRONLY ||| O_CREATE) &&& O_CREATE = 0) := by decide
  unfold FileCreation.Command
  rw [hdec]
  simp only [if_neg hne, hget, osStat, hnew, hperm, osOpenFile, if_neg hflag, hparent]
  cases habs : env.filepathAbs path <;>
    simp [File.WriteString, File.Close, lookup_set, errorOf, writtenOf, jsonMarshal,
      JsonValue.field, JsonValue.asInt, goBytes_length, List.lookup]

/-- C5 at the arguments `{"content": "x"}`, in which `path` is absent. -/
theorem command_missing_path_witness :
    sampleTool.Command sampleEnv sampleWorld (.valid (.obj [("content", .str "x")]))
        = (.error (.missingParameter "path"), sampleWorld)
      ∧ (CommandError.missingParameter "path").message = "missing parameter: 'path'" :=
  command_missing_path sampleEnv sampleTool sampleWorld
    (.valid (.obj [("content", .str "x")])) { Content := "x" } rfl (Or.inr (by decide))

/-- C3 at the existing file `/tmp/a`, with a permission text that would not parse. -/
theorem command_existing_path_conflict_witness :
    ∃ e, (sampleTool.Command sampleEnv sampleWorld (sampleArgs "/tmp/a" "x" "abc")).1 = .error e
      ∧ e.isConflict = true
      ∧ e = (match Node.file 0o644 [] with
              | .dir _ => CommandError.pathIsDirectory "/tmp/a"
              | .file _ _ => CommandError.fileAlreadyExists "/tmp/a")
      ∧ (sampleTool.Command sampleEnv sampleWorld (sampleArgs "/tmp/a" "x" "abc")).2.fs
          = sampleWorld.fs
      ∧ (sampleTool.Command sampleEnv sampleWorld (sampleArgs "/tmp/a" "x" "abc")).2.trace
          = sampleWorld.trace ++ [Effect.stat "/tmp/a"] :=
  command_existing_path_conflict sampleEnv sampleTool sampleWorld (sampleArgs "/tmp/a" "x" "abc")
    { Path := "/tmp/a", Content := "x", Permission := "abc" } "/tmp/a" (.file 0o644 [])
    rfl (by decide) rfl (by decide)

/-- C6 fails at the existing file `/tmp/a` with permission `abc`: the text is not an
octal number, yet the error returned is `file already exists`, not a permission
parse error. -/
theorem command_malformed_permission_existing_path :
    isOctalDigits (stripSign "abc".data) = false
      ∧ errorOf (sampleTool.Command sampleEnv sampleWorld (sampleArgs "/tmp/a" "x" "abc"))
          = some (.fileAlreadyExists "/tmp/a")
      ∧ ∀ pe, errorOf (sampleTool.Command sampleEnv sampleWorld (sampleArgs "/tmp/a" "x" "abc"))
          ≠ some (.parsingPermissions pe) := by
  refine ⟨by decide, by decide, ?_⟩
  intro pe
  have h : errorOf (sampleTool.Command sampleEnv sampleWorld (sampleArgs "/tmp/a" "x" "abc"))
      = some (.fileAlreadyExists "/tmp/a") := by decide
  rw [h]
  simp

/-- C6 as amended, at the new path `/tmp/b` with permission `abc`. -/
theorem command_malformed_permission_witness :
    (∃ e, (sampleTool.Command sampleEnv sampleWorld (sampleArgs "/tmp/b" "x" "abc")).1 = .error e)
      ∧ (sampleTool.Command sampleEnv sampleWorld (sampleArgs "/tmp/b" "x" "abc")).2.fs
          = sampleWorld.fs
      ∧ ∀ path, sampleEnv.pathGet "/tmp/b" = .ok path → sampleWorld.fs.lookup path = none →
          ∃ pe, sampleTool.Command sampleEnv sampleWorld (sampleArgs "/tmp/b" "x" "abc")
            = (.error (.parsingPermissions pe),
                { sampleWorld with trace := sampleWorld.trace ++ [Effect.stat path] }) :=
  command_malformed_permission sampleEnv sampleTool sampleWorld (sampleArgs "/tmp/b" "x" "abc")
    { Path := "/tmp/b", Content := "x", Permission := "abc" } rfl (by decide) (by decide)
    (by decide)

/-- C4, as the code has it: when the arguments decode, `path` is non-empty and
resolves to a location that does not exist but whose parent directory does, and the
permission is empty or accepted by `strconv.ParseInt(_, 8, 32)`, `Command` succeeds
and the `written` member of its JSON result is the byte length of the content (0
for an empty or omitted content). -/
theorem command_written_length (env : Env) (f : FileCreation) (w : World) (j : JsonText)
    (pArgs : FileCreationArguments) (path : String) (dmode : Nat)
    (hdec : jsonUnmarshal j = .ok pArgs) (hne : pArgs.Path ≠ "")
    (hget : env.pathGet pArgs.Path = .ok path) (hnew : w.fs.lookup path = none)
    (hparent : w.fs.lookup (parentDir path) = some (.dir dmode))
    (hperm : pArgs.Permission = "" ∨ ∃ pi, ParseInt pArgs.Permission 8 32 = .ok pi) :
    errorOf (f.Command env w j) = none
      ∧ writtenOf (f.Command env w j) = some (pArgs.Content.utf8ByteSize : Int)
      ∧ (pArgs.Content = "" → writtenOf (f.Command env w j) = some 0)
      ∧ ∃ perm, (f.Command env w j).2.fs.lookup path
          = some (.file perm (goBytes pArgs.Content)) := by
  have hp : ∃ perm, commandPerm pArgs.Permission = .ok perm := by
    rcases hperm with h | ⟨pi, h⟩
    · exact ⟨_, (commandPerm_octal pArgs.Permission).1 h⟩
    · by_cases he : pArgs.Permission = ""
      · exact ⟨_, (commandPerm_octal pArgs.Permission).1 he⟩
      · exact ⟨FileMode pi, by unfold commandPerm; rw [if_pos he, h]⟩
  obtain ⟨perm, hperm2⟩ := hp
  obtain ⟨h1, h2, h3, _⟩ := command_creates env f w j pArgs path perm dmode hdec hne hget hnew
    hparent hperm2
  refine ⟨h1, h2, ?_, _, h3⟩
  intro hc
  rw [h2, hc]
  rfl

/-- C4 as amended, at the new path `/tmp/b` with a six-byte content. -/
theorem command_written_length_witness :
    errorOf (sampleTool.Command sampleEnv sampleWorld (sampleArgs "/tmp/b" "héllo" "")) = none
      ∧ writtenOf (sampleTool.Command sampleEnv sampleWorld (sampleArgs "/tmp/b" "héllo" ""))
          = some ("héllo".utf8ByteSize : Int)
      ∧ ("héllo" = "" →
          writtenOf (sampleTool.Command sampleEnv sampleWorld (sampleArgs "/tmp/b" "héllo" ""))
            = some 0)
      ∧ ∃ perm, (sampleTool.Command sampleEnv sampleWorld
            (sampleArgs "/tmp/b" "héllo" "")).2.fs.lookup "/tmp/b"
          = some (.file perm (goBytes "héllo")) :=
  command_written_length sampleEnv sampleTool sampleWorld (sampleArgs "/tmp/b" "héllo" "")
    { Path := "/tmp/b", Content := "héllo", Permission := "" } "/tmp/b" 0o755
    rfl (by decide) rfl (by decide) (by decide) (Or.inl rfl)

/-- C4 fails at two inputs whose path does not exist: with permission `abc` the
command returns a permission parse error, and at `/nodir/b`, whose parent directory
is missing, it returns the file creation error. -/
theorem command_new_path_can_fail :
    sampleWorld.fs.lookup "/tmp/b" = none
      ∧ errorOf (sampleTool.Command sampleEnv sampleWorld (sampleArgs "/tmp/b" "hello" "abc"))
          = some (.parsingPermissions .syntaxErr)
      ∧ writtenOf (sampleTool.Command sampleEnv sampleWorld (sampleArgs "/tmp/b" "hello" "abc"))
          = none
      ∧ sampleWorld.fs.lookup "/nodir/b" = none
      ∧ errorOf (sampleTool.Command sampleEnv sampleWorld (sampleArgs "/nodir/b" "hello" ""))
          = some (.creatingFile .ENOENT)
      ∧ writtenOf (sampleTool.Command sampleEnv sampleWorld (sampleArgs "/nodir/b" "hello" ""))
          = none := by
  decide

/-- A number below `2^9` has none of the special `FileMode` bits. -/
theorem and_two_pow_eq_zero (v k : Nat) (hv : v < 2 ^ 9) (hk : 9 ≤ k) : v &&& 2 ^ k = 0 := by
  apply Nat.eq_of_testBit_eq
  intro i
  simp only [Nat.testBit_and, Nat.testBit_two_pow, Nat.zero_testBit]
  by_cases hi : k = i
  · have : v.testBit i = false :=
      Nat.testBit_lt_two_pow (Nat.lt_of_lt_of_le hv (Nat.pow_le_pow_right (by decide) (hi ▸ hk)))
    simp [this]
  · simp [hi]

/-- A mode of permission bits only is what `syscallMode` passes on. -/
theorem syscallMode_perm (v : Nat) (hv : v ≤ 0o777) : syscallMode v = v := by
  have hlt : v < 2 ^ 9 := by norm_num; omega
  have h1 : v &&& ModePerm = v := by
    have : ModePerm = 2 ^ 9 - 1 := by decide
    rw [this, Nat.and_pow_two_sub_one_eq_mod, Nat.mod_eq_of_lt hlt]
  have e1 : v &&& ModeSetuid = 0 := and_two_pow_eq_zero v 23 hlt (by decide)
  have e2 : v &&& ModeSetgid = 0 := and_two_pow_eq_zero v 22 hlt (by decide)
  have e3 : v &&& ModeSticky = 0 := and_two_pow_eq_zero v 20 hlt (by decide)
  unfold syscallMode
  rw [h1, e1, e2, e3]
  simp

/-- A mode of permission bits none of which the umask clears is the mode the file is
created with. -/
theorem createdMode_perm (v umask : Nat) (hv : v ≤ 0o777) (hu : v &&& umask = 0) :
    createdMode v umask = v := by
  have hlt : v < 2 ^ 9 := by norm_num; omega
  unfold createdMode
  rw [syscallMode_perm v hv]
  apply Nat.eq_of_testBit_eq
  intro i
  have h12 : (0o7777 : Nat) = 2 ^ 12 - 1 := by decide
  have h9 : (0o777 : Nat) = 2 ^ 9 - 1 := by decide
  rw [h12, h9]
  simp only [Nat.testBit_and, Nat.testBit_xor, Nat.testBit_two_pow_sub_one]
  cases hb : v.testBit i with
  | false => simp
  | true =>
    have hi : i < 9 := by
      by_contra hge
      have := Nat.testBit_lt_two_pow
        (Nat.lt_of_lt_of_le hlt (Nat.pow_le_pow_right (by decide) (Nat.le_of_not_lt hge)))
      rw [hb] at this
      exact absurd this (by simp)
    have hum : umask.testBit i = false := by
      have := congrArg (fun n => n.testBit i) hu
      simp only [Nat.testBit_and, hb, Bool.true_and, Nat.zero_testBit] at this
      exact this
    have hi12 : i < 12 := by omega
    simp [hum, hi, hi12]

/-- C10, as the code has it: when `Command` reaches the creation of the file (the
arguments decode, the path is non-empty and resolves to a location that does not
exist and whose parent directory does), it calls `os.OpenFile` with
`O_WRONLY|O_CREATE` and with `perm = 0644` if the permission is empty, and with
`perm` the permission read in base 8 if the permission is a run of octal digits
reading below `2^31`. The file is created with the mode `createdMode perm umask`
(the permission and special bits of `perm`, less the umask), which is the requested
value itself when that value is at most `0777` and the umask clears none of its
bits. -/
theorem command_file_mode (env : Env) (f : FileCreation) (w : World) (j : JsonText)
    (pArgs : FileCreationArguments) (path : String) (dmode : Nat)
    (hdec : jsonUnmarshal j = .ok pArgs) (hne : pArgs.Path ≠ "")
    (hget : env.pathGet pArgs.Path = .ok path) (hnew : w.fs.lookup path = none)
    (hparent : w.fs.lookup (parentDir path) = some (.dir dmode)) :
    (pArgs.Permission = "" →
        Effect.openFile path (O_WRONLY ||| O_CREATE) 0o644 ∈ (f.Command env w j).2.trace
          ∧ (f.Command env w j).2.fs.lookup path
              = some (.file (createdMode 0o644 w.umask) (goBytes pArgs.Content))
          ∧ (0o644 &&& w.umask = 0 →
              (f.Command env w j).2.fs.lookup path
                = some (.file 0o644 (goBytes pArgs.Content))))
      ∧ (isOctalDigits pArgs.Permission.data = true → octalValue pArgs.Permission.data < 2 ^ 31 →
        Effect.openFile path (O_WRONLY ||| O_CREATE) (octalValue pArgs.Permission.data)
              ∈ (f.Command env w j).2.trace
          ∧ (f.Command env w j).2.fs.lookup path
              = some (.file (createdMode (octalValue pArgs.Permission.data) w.umask)
                  (goBytes pArgs.Content))
          ∧ (octalValue pArgs.Permission.data ≤ 0o777 →
              octalValue pArgs.Permission.data &&& w.umask = 0 →
              (f.Command env w j).2.fs.lookup path
                = some (.file (octalValue pArgs.Permission.data) (goBytes pArgs.Content)))) := by
  constructor
  · intro he
    obtain ⟨_, _, h3, h4⟩ := command_creates env f w j pArgs path 0o644 dmode hdec hne hget hnew
      hparent ((commandPerm_octal pArgs.Permission).1 he)
    refine ⟨h4, h3, ?_⟩
    intro hu
    rw [h3, createdMode_perm 0o644 w.umask (by decide) hu]
  · intro hoct hval
    obtain ⟨_, _, h3, h4⟩ := command_creates env f w j pArgs path
      (octalValue pArgs.Permission.data) dmode hdec hne hget hnew hparent
      ((commandPerm_octal pArgs.Permission).2 hoct hval)
    refine ⟨h4, h3, ?_⟩
    intro hle hu
    rw [h3, createdMode_perm _ w.umask hle hu]

/-- C10 as amended, at the new path `/tmp/b` with permission `0600`, which reads as
384 in base 8 and has no bit in the umask `022`. -/
theorem command_file_mode_witness :
    octalValue "0600".data = 384
      ∧ Effect.openFile "/tmp/b" (O_WRONLY ||| O_CREATE) (octalValue "0600".data)
          ∈ (sampleTool.Command sampleEnv sampleWorld (sampleArgs "/tmp/b" "hi" "0600")).2.trace
      ∧ (sampleTool.Command sampleEnv sampleWorld (sampleArgs "/tmp/b" "hi" "0600")).2.fs.lookup
          "/tmp/b" = some (.file (octalValue "0600".data) (goBytes "hi")) :=
  have h := (command_file_mode sampleEnv sampleTool sampleWorld
      (sampleArgs "/tmp/b" "hi" "0600")
      { Path := "/tmp/b", Content := "hi", Permission := "0600" } "/tmp/b" 0o755
      rfl (by decide) rfl (by decide) (by decide)).2 (by decide) (by decide)
  ⟨by decide, h.1, h.2.2 (by decide) (by decide)⟩

/-- C10 fails at three permissions made of octal digits. `77777777777` reads as
`2^33 - 1`: `Command` returns a permission parse error (out of range for 32 bits)
and creates no file. `4755` reads as 2541, but the file is created with mode `0755`
even with an empty umask, the bit `04000` not being an `os.FileMode` bit. `666`
reads as 438, but under the umask `022` the file is created with mode `0644`. -/
theorem command_octal_permission_mode_differs :
    isOctalDigits "77777777777".data = true
      ∧ octalValue "77777777777".data = 2 ^ 33 - 1
      ∧ sampleWorld.fs.lookup "/tmp/b" = none
      ∧ errorOf (sampleTool.Command sampleEnv sampleWorld
            (sampleArgs "/tmp/b" "hi" "77777777777"))
          = some (.parsingPermissions .rangeErr)
      ∧ (sampleTool.Command sampleEnv sampleWorld
            (sampleArgs "/tmp/b" "hi" "77777777777")).2.fs = sampleWorld.fs
      ∧ isOctalDigits "4755".data = true
      ∧ octalValue "4755".data = 0o4755
      ∧ (sampleTool.Command sampleEnv { sampleWorld with umask := 0 }
            (sampleArgs "/tmp/b" "hi" "4755")).2.fs.lookup "/tmp/b"
          = some (.file 0o755 (goBytes "hi"))
      ∧ isOctalDigits "666".data = true
      ∧ octalValue "666".data = 0o666
      ∧ sampleWorld.umask = 0o22
      ∧ (sampleTool.Command sampleEnv sampleWorld
            (sampleArgs "/tmp/b" "hi" "666")).2.fs.lookup "/tmp/b"
          = some (.file 0o644 (goBytes "hi")) := by
  decide

end AskMai
